import Mathlib

/-!
Verification of the zdoc documentation tool (src/main.rs) against its
specification.  The JSON values handled by the tool are modelled by the
inductive `JVal`; objects are association lists in the iteration order of
the underlying map, and the hash maps built by the diff algorithm are
modelled as association lists in insertion order with last-wins overwrite
semantics (`insertAssoc`).  Rust string ordering (`Ord` on `String`, i.e.
lexicographic on the UTF-8 bytes) is modelled by `charListLt` on the
code-point sequence, which induces the same order.  Rust stable sorting
(`sort_by`) is modelled by `List.insertionSort`, which is also stable and
hence produces the identical output list for the same comparator.
-/

set_option maxRecDepth 20000

namespace Zdoc

/-- A JSON value as handled by serde_json in the source.  Objects keep
their fields as an association list in iteration order. -/
inductive JVal where
  | null
  | bool (b : Bool)
  | num (n : Int)
  | str (s : String)
  | arr (elems : List JVal)
  | obj (fields : List (String × JVal))

/-- Model of Value::get with a string key: looks a field up in an object,
returns none on non-objects. -/
def jGet : JVal → String → Option JVal
  | .obj fs, k => (fs.find? (fun p => decide (p.1 = k))).map (fun p => p.2)
  | _, _ => none

/-- Model of Value::get with an array index. -/
def arrGet : JVal → Nat → Option JVal
  | .arr xs, i => xs.get? i
  | _, _ => none

/-- Model of Value::as_str. -/
def asStr : JVal → Option String
  | .str s => some s
  | _ => none

/-- Model of Value::as_array. -/
def asArr : JVal → Option (List JVal)
  | .arr xs => some xs
  | _ => none

/-- Model of Value::as_object, yielding the field association list. -/
def asObj : JVal → Option (List (String × JVal))
  | .obj fs => some fs
  | _ => none

/-- Model of Value::as_bool. -/
def asBool : JVal → Option Bool
  | .bool b => some b
  | _ => none

/-- Model of Value::is_null. -/
def isNull : JVal → Bool
  | .null => true
  | _ => false

/-- Translation of format_type (src/main.rs lines 414-445): renders a
type expression, preferring a resolved path name, then a primitive name,
then a borrowed reference, and falling back to the placeholder. -/
def format_type (type_data : JVal) : String :=
  match (jGet type_data "resolved_path").bind (fun rp => (jGet rp "name").bind asStr) with
  | some name => name
  | none =>
    match (jGet type_data "primitive").bind asStr with
    | some p => p
    | none =>
      match h : jGet type_data "borrowed_ref" with
      | some borrowed_ref =>
        let mut_flag := ((jGet borrowed_ref "mutable").bind asBool).getD false
        let inner_type :=
          match h2 : jGet borrowed_ref "type" with
          | some t => format_type t
          | none => "?"
        if mut_flag then "&mut " ++ inner_type else "&" ++ inner_type
      | none => "..."
termination_by sizeOf type_data
decreasing_by
  · have key : ∀ (v : JVal) (k : String) (w : JVal), jGet v k = some w → sizeOf w < sizeOf v := by
      intro v k w hvw
      cases v with
      | obj fs =>
        simp only [jGet, Option.map_eq_some'] at hvw
        obtain ⟨p, hp, rfl⟩ := hvw
        have hmem := List.mem_of_find?_eq_some hp
        have hlt : sizeOf p < sizeOf fs := List.sizeOf_lt_of_mem hmem
        have hsnd : sizeOf p.2 < sizeOf p := by
          obtain ⟨a, b⟩ := p
          simp only [Prod.mk.sizeOf_spec]
          omega
        simp only [JVal.obj.sizeOf_spec]
        omega
      | null => simp [jGet] at hvw
      | bool b => simp [jGet] at hvw
      | num n => simp [jGet] at hvw
      | str s => simp [jGet] at hvw
      | arr xs => simp [jGet] at hvw
    have hb := key _ _ _ h2
    have ha := key _ _ _ h
    omega

/-- Model of Rust slice join: concatenates the strings with the separator
between consecutive elements. -/
def joinSep (sep : String) : List String → String
  | [] => ""
  | [x] => x
  | x :: y :: rest => x ++ sep ++ joinSep sep (y :: rest)

/-- Translation of the parameter-rendering closure inside
extract_signature (lines 339-343): a parameter renders as
"name: Type" and is skipped when the name or the type is missing. -/
def renderParam (input : JVal) : Option String :=
  match (arrGet input 0).bind asStr with
  | none => none
  | some name =>
    match arrGet input 1 with
    | none => none
    | some t => some (name ++ ": " ++ format_type t)

/-- Translation of the Function/Method arm of extract_signature
(lines 330-360). -/
def functionSignature (inner : JVal) : String :=
  let sig_parts : List String :=
    match jGet inner "decl" with
    | none => []
    | some decl =>
      let params_part : List String :=
        match (jGet decl "inputs").bind asArr with
        | some inputs => ["(" ++ joinSep ", " (inputs.filterMap renderParam) ++ ")"]
        | none => []
      let return_part : List String :=
        match jGet decl "output" with
        | some output =>
          if isNull output then []
          else
            let ret_type := format_type output
            if ret_type ≠ "()" then ["-> " ++ ret_type] else []
        | none => []
      params_part ++ return_part
  joinSep " " sig_parts

/-- Translation of the Struct arm of extract_signature (lines 362-391). -/
def structSignature (inner : JVal) : String :=
  match (jGet inner "kind").bind asStr with
  | some kind_str =>
    if kind_str = "plain" then
      match (jGet inner "fields").bind asArr with
      | some fields => "\x7b " ++ toString (fields.filterMap asStr).length ++ " fields \x7d"
      | none => ""
    else if kind_str = "tuple" then
      match (jGet inner "fields").bind asArr with
      | some fields => "(" ++ toString fields.length ++ " fields)"
      | none => ""
    else ""
  | none => ""

/-- Translation of the Enum arm of extract_signature (lines 393-399). -/
def enumSignature (inner : JVal) : String :=
  match (jGet inner "variants").bind asArr with
  | some variants => "\x7b " ++ toString variants.length ++ " variants \x7d"
  | none => ""

/-- Translation of the Trait arm of extract_signature (lines 401-407). -/
def traitSignature (inner : JVal) : String :=
  match (jGet inner "items").bind asArr with
  | some items => "\x7b " ++ toString items.length ++ " items \x7d"
  | none => ""

/-- Translation of extract_signature (lines 323-411). -/
def extract_signature (item_type : String) (inner_data : Option JVal) : String :=
  match inner_data with
  | none => ""
  | some inner =>
    match item_type with
    | "Function" | "Method" => functionSignature inner
    | "Struct" => structSignature inner
    | "Enum" => enumSignature inner
    | "Trait" => traitSignature inner
    | _ => ""

/-- Translation of the ApiItem struct (lines 146-152). -/
structure ApiItem where
  name : String
  item_type : String
  path : List String
  signature : String
deriving DecidableEq, Repr

/-- Translation of ApiItem::full_path (lines 155-161). -/
def ApiItem.full_path (item : ApiItem) : String :=
  if item.path.isEmpty then item.name
  else joinSep "::" item.path ++ "::" ++ item.name

/-- The identity key used by compare_api_items (lines 454 and 459):
full path, "::", then the kind label. -/
def apiKey (item : ApiItem) : String :=
  item.full_path ++ "::" ++ item.item_type

/-- Model of HashMap::insert on an association list: overwrite in place
when the key exists, append otherwise. -/
def insertAssoc {α : Type} (m : List (String × α)) (k : String) (v : α) :
    List (String × α) :=
  if m.any (fun p => decide (p.1 = k)) then
    m.map (fun p => if p.1 = k then (k, v) else p)
  else m ++ [(k, v)]

/-- Model of HashMap::get on an association list. -/
def lookupAssoc {α : Type} (m : List (String × α)) (k : String) : Option α :=
  (m.find? (fun p => decide (p.1 = k))).map (fun p => p.2)

/-- Translation of the first pass of extract_api_items (lines 267-285):
maps each named item identifier to its declaration path. -/
def build_id_to_path (index : List (String × JVal)) : List (String × List String) :=
  index.foldl
    (fun m p =>
      if ((jGet p.2 "name").bind asStr).isSome then
        let path :=
          (((jGet p.2 "path").bind asArr).map (fun arr => arr.filterMap asStr)).getD []
        insertAssoc m p.1 path
      else m)
    []

/-- Translation of one step of the second pass of extract_api_items
(lines 288-317): skip unnamed items, items without an object inner
payload, and Import/ProcMacro kinds; otherwise emit one ApiItem. -/
def extract_entry (id_to_path : List (String × List String)) (id : String)
    (item : JVal) : Option ApiItem :=
  match (jGet item "name").bind asStr with
  | none => none
  | some name =>
    match (jGet item "inner").bind asObj with
    | none => none
    | some innerFields =>
      let item_type := (innerFields.head?.map (fun p => p.1)).getD ""
      if item_type = "Import" ∨ item_type = "ProcMacro" then none
      else
        some
          { name := name
            item_type := item_type
            path := (lookupAssoc id_to_path id).getD []
            signature := extract_signature item_type (jGet (JVal.obj innerFields) item_type) }

/-- Translation of extract_api_items (lines 258-320). -/
def extract_api_items (json_data : JVal) : Except String (List ApiItem) :=
  match (jGet json_data "index").bind asObj with
  | none => .error "Missing or invalid index field in JSON"
  | some index =>
    .ok (index.filterMap (fun p => extract_entry (build_id_to_path index) p.1 p.2))

/-- Translation of the SearchResult struct (lines 135-143). -/
structure SearchResult where
  name : String
  crate_name : String
  item_type : String
  path : Option String
  description : Option String
  score : Int
deriving DecidableEq, Repr

/-- Translation of one iteration of the fuzzy_search_json loop
(lines 183-214); the external fuzzy scorer is passed in as `matcher`. -/
def search_entry (matcher : String → String → Option Int)
    (crate_name query : String) (item : JVal) : Option SearchResult :=
  match (jGet item "name").bind asStr with
  | none => none
  | some name =>
    match matcher name query with
    | none => none
    | some score =>
      some
        { name := name
          crate_name := crate_name
          item_type :=
            (((jGet item "inner").bind asObj).bind
              (fun fs => fs.head?.map (fun p => p.1))).getD "unknown"
          path := none
          description := (jGet item "docs").bind asStr
          score := score }

/-- Translation of fuzzy_search_json (lines 168-217). -/
def fuzzy_search_json (matcher : String → String → Option Int)
    (json_data : JVal) (crate_name query : String) :
    Except String (List SearchResult) :=
  match (jGet json_data "index").bind asObj with
  | none => .error "Missing or invalid index field in JSON"
  | some index =>
    .ok (index.filterMap (fun p => search_entry matcher crate_name query p.2))

/-- Translation of the per-crate accumulation loop of search_docs
(lines 86-103): results of the crates are concatenated in order, the
first error aborting the search. -/
def gather_results (matcher : String → String → Option Int) (query : String) :
    List (String × JVal) → Except String (List SearchResult)
  | [] => .ok []
  | (c, j) :: rest =>
    match fuzzy_search_json matcher j c query with
    | .error e => .error e
    | .ok rs =>
      match gather_results matcher query rest with
      | .error e => .error e
      | .ok rest_results => .ok (rs ++ rest_results)

/-- Strict lexicographic comparison of code-point sequences; models the
Rust Ord instance on String used by sort_by and by string comparison. -/
def charListLt : List Char → List Char → Bool
  | [], [] => false
  | [], _ :: _ => true
  | _ :: _, [] => false
  | a :: as, b :: bs =>
    if a.toNat < b.toNat then true
    else if b.toNat < a.toNat then false
    else charListLt as bs

/-- Strict string order of the Rust Ord instance. -/
def strLt (a b : String) : Bool := charListLt a.data b.data

/-- Non-strict string order of the Rust Ord instance. -/
def strLe (a b : String) : Bool := !(strLt b a)

/-- Descending score order used by search_docs (line 106). -/
def scoreDescLe (a b : SearchResult) : Prop := b.score ≤ a.score

instance : DecidableRel scoreDescLe := fun a b =>
  inferInstanceAs (Decidable (b.score ≤ a.score))

instance : IsTotal SearchResult scoreDescLe :=
  ⟨fun a b => Int.le_total b.score a.score⟩

instance : IsTrans SearchResult scoreDescLe :=
  ⟨fun _ _ _ h1 h2 => le_trans h2 h1⟩

/-- Translation of the tail of search_docs (lines 105-107): sort all
accumulated results by score descending (stable) and truncate to the
caller-supplied limit. -/
def search_docs_core (matcher : String → String → Option Int)
    (crates : List (String × JVal)) (query : String) (limit : Nat) :
    Except String (List SearchResult) :=
  match gather_results matcher query crates with
  | .error e => .error e
  | .ok all_results => .ok ((List.insertionSort scoreDescLe all_results).take limit)

/-- The key-to-item mapping built by compare_api_items (lines 452-460):
collecting an iterator of pairs into a HashMap, modelled in insertion
order with last-wins overwrites. -/
def buildMap (items : List ApiItem) : List (String × ApiItem) :=
  items.foldl (fun m item => insertAssoc m (apiKey item) item) []

/-- Translation of compare_api_items (lines 448-492): key both sides,
then classify keys into added, removed and modified. -/
def compare_api_items (old_items new_items : List ApiItem) :
    List ApiItem × List ApiItem × List (ApiItem × ApiItem) :=
  let old_set := buildMap old_items
  let new_set := buildMap new_items
  let old_keys := old_set.map (fun p => p.1)
  let new_keys := new_set.map (fun p => p.1)
  let added :=
    (new_keys.filter (fun k => !(decide (k ∈ old_keys)))).filterMap
      (fun k => lookupAssoc new_set k)
  let removed :=
    (old_keys.filter (fun k => !(decide (k ∈ new_keys)))).filterMap
      (fun k => lookupAssoc old_set k)
  let modified :=
    (old_keys.filter (fun k => decide (k ∈ new_keys))).filterMap
      (fun k =>
        match lookupAssoc old_set k, lookupAssoc new_set k with
        | some old_item, some new_item =>
          if old_item.signature ≠ new_item.signature then some (old_item, new_item)
          else none
        | _, _ => none)
  (added, removed, modified)

/-- The added or removed sequence as the program computes it
(lines 466-475): the key set of `side_map` is iterated in the storage
order `order` of the backing HashSet — an unspecified permutation of
the keys, since each hash set is independently randomly seeded — keys
present in `other_keys` are dropped, and the survivors are looked up in
`side_map`.  compare_api_items is this computation at the insertion
order of the model. -/
def diff_only_keys (order : List String) (other_keys : List String)
    (side_map : List (String × ApiItem)) : List ApiItem :=
  (order.filter (fun k => !(decide (k ∈ other_keys)))).filterMap
    (fun k => lookupAssoc side_map k)

/-- One admissible storage order of the hash set over the keys of
c1_itemA and c1_itemB. -/
def c8_order1 : List String := ["a::Function", "b::Function"]

/-- The opposite admissible storage order of the same hash set. -/
def c8_order2 : List String := ["b::Function", "a::Function"]

/-- Ascending full-path order used by the display_diff sorts
(lines 523, 534). -/
def fpLe (a b : ApiItem) : Prop := strLe a.full_path b.full_path = true

instance : DecidableRel fpLe := fun a b =>
  inferInstanceAs (Decidable (_ = true))

/-- Ascending order on modified pairs by the old item full path
(line 548). -/
def pairLe (p q : ApiItem × ApiItem) : Prop :=
  strLe p.1.full_path q.1.full_path = true

instance : DecidableRel pairLe := fun p q =>
  inferInstanceAs (Decidable (_ = true))

/-- Translation of the sorting performed by display_diff (lines 523,
534, 548) on the three sequences produced by compare_api_items; the
rendering itself is outside the verified core. -/
def diff_sorted (old_items new_items : List ApiItem) :
    List ApiItem × List ApiItem × List (ApiItem × ApiItem) :=
  (List.insertionSort fpLe (compare_api_items old_items new_items).1,
   List.insertionSort fpLe (compare_api_items old_items new_items).2.1,
   List.insertionSort pairLe (compare_api_items old_items new_items).2.2)

/-- The three modeled key patterns of format_type: a resolved path
carrying a string name, a primitive carrying a string, or a borrowed
reference. -/
def modeled_shape (v : JVal) : Prop :=
  ((jGet v "resolved_path").bind (fun rp => (jGet rp "name").bind asStr)).isSome = true ∨
  ((jGet v "primitive").bind asStr).isSome = true ∨
  (jGet v "borrowed_ref").isSome = true

instance (v : JVal) : Decidable (modeled_shape v) :=
  inferInstanceAs (Decidable (_ ∨ _ ∨ _))

/-- The condition under which extract_api_items emits an ApiItem for an
index entry: a string name, an object inner payload, and a first tag key
(empty when the object is empty) other than Import and ProcMacro. -/
def qualifies (item : JVal) : Bool :=
  match (jGet item "name").bind asStr with
  | none => false
  | some _ =>
    match (jGet item "inner").bind asObj with
    | none => false
    | some innerFields =>
      let item_type := (innerFields.head?.map (fun p => p.1)).getD ""
      !(decide (item_type = "Import" ∨ item_type = "ProcMacro"))

/-- The qualification condition as the claim states it, requiring a
non-empty inner tag set. -/
def qualifies_claimed (item : JVal) : Bool :=
  match (jGet item "name").bind asStr with
  | none => false
  | some _ =>
    match (jGet item "inner").bind asObj with
    | none => false
    | some innerFields =>
      if innerFields.isEmpty then false
      else
        let item_type := (innerFields.head?.map (fun p => p.1)).getD ""
        !(decide (item_type = "Import" ∨ item_type = "ProcMacro"))

/-- Concrete item used for the diff ordering counterexample. -/
def c1_itemA : ApiItem :=
  { name := "a", item_type := "Function", path := [], signature := "" }

/-- Concrete item used for the diff ordering counterexample. -/
def c1_itemB : ApiItem :=
  { name := "b", item_type := "Function", path := [], signature := "" }

/-- Concrete old side for the diff classification example. -/
def c2_old_list : List ApiItem :=
  [{ name := "foo", item_type := "Function", path := [], signature := "(x: i32)" }]

/-- Concrete new side for the diff classification example. -/
def c2_new_list : List ApiItem :=
  [{ name := "foo", item_type := "Function", path := [], signature := "(x: i64)" },
   { name := "baz", item_type := "Struct", path := [], signature := "" }]

/-- Index with one named entry whose inner tag set is empty. -/
def c3_index : List (String × JVal) :=
  [("0", JVal.obj [("name", JVal.str "x"), ("inner", JVal.obj [])])]

/-- Document wrapping c3_index. -/
def c3_json : JVal := JVal.obj [("index", JVal.obj c3_index)]

/-- A type expression matching none of the modeled key patterns. -/
def c5_unmodeled : JVal := JVal.obj [("slice", JVal.null)]

/-- The primitive i32 type expression of the function example. -/
def c6_param_type : JVal := JVal.obj [("primitive", JVal.str "i32")]

/-- The decl payload of the function example. -/
def c6_decl : JVal :=
  JVal.obj
    [("inputs", JVal.arr [JVal.arr [JVal.str "x", c6_param_type]]),
     ("output", c6_param_type)]

/-- The Function payload of the function example. -/
def c6_inner : JVal := JVal.obj [("decl", c6_decl)]

/-- Old document: struct bar with plain layout and two fields. -/
def c7_old_json : JVal :=
  JVal.obj
    [("index", JVal.obj
      [("1", JVal.obj
        [("name", JVal.str "bar"),
         ("inner", JVal.obj
           [("Struct", JVal.obj
             [("kind", JVal.str "plain"),
              ("fields", JVal.arr [JVal.str "f0", JVal.str "f1"])])])])])]

/-- New document: struct bar with plain layout and three fields. -/
def c7_new_json : JVal :=
  JVal.obj
    [("index", JVal.obj
      [("1", JVal.obj
        [("name", JVal.str "bar"),
         ("inner", JVal.obj
           [("Struct", JVal.obj
             [("kind", JVal.str "plain"),
              ("fields", JVal.arr [JVal.str "f0", JVal.str "f1", JVal.str "f2"])])])])])]

/-- The ApiItem extracted from c7_old_json. -/
def c7_bar_old : ApiItem :=
  { name := "bar", item_type := "Struct", path := [], signature := "\x7b 2 fields \x7d" }

/-- The ApiItem extracted from c7_new_json. -/
def c7_bar_new : ApiItem :=
  { name := "bar", item_type := "Struct", path := [], signature := "\x7b 3 fields \x7d" }

/-- A plain struct payload whose field identifiers are numbers, as in
real rustdoc output. -/
def c7_bad_inner : JVal :=
  JVal.obj [("kind", JVal.str "plain"), ("fields", JVal.arr [JVal.num 1, JVal.num 2])]

/-- Plain struct payload with two string field identifiers. -/
def c7_plain_inner : JVal :=
  JVal.obj [("kind", JVal.str "plain"), ("fields", JVal.arr [JVal.str "f0", JVal.str "f1"])]

/-- Tuple struct payload with three fields. -/
def c7_tuple_inner : JVal :=
  JVal.obj [("kind", JVal.str "tuple"),
    ("fields", JVal.arr [JVal.num 1, JVal.num 2, JVal.num 3])]

/-- Unit struct payload. -/
def c7_unit_inner : JVal := JVal.obj [("kind", JVal.str "unit")]

/-- Concrete fuzzy scorer for the search example. -/
def c9_matcher : String → String → Option Int :=
  fun candidate _ =>
    if candidate = "iter" then some 2
    else if candidate = "into_iter" then some 1
    else none

/-- Index with two matching names, one rejected name and one unnamed
entry. -/
def c9_index : List (String × JVal) :=
  [("1", JVal.obj [("name", JVal.str "iter")]),
   ("2", JVal.obj [("name", JVal.str "into_iter")]),
   ("3", JVal.obj [("name", JVal.str "map")]),
   ("4", JVal.obj [("docs", JVal.str "unnamed entry")])]

/-- Document wrapping c9_index. -/
def c9_json : JVal := JVal.obj [("index", JVal.obj c9_index)]

/-- Search result of the iter entry. -/
def c9_iter : SearchResult :=
  { name := "iter", crate_name := "c", item_type := "unknown",
    path := none, description := none, score := 2 }

/-- Search result of the into_iter entry. -/
def c9_into : SearchResult :=
  { name := "into_iter", crate_name := "c", item_type := "unknown",
    path := none, description := none, score := 1 }

/-- The full accumulated and sorted search output of the example. -/
def c9_out : List SearchResult := [c9_iter, c9_into]

/-- Scorer accepting everything, for the path example. -/
def c10_matcher : String → String → Option Int := fun _ _ => some 1

/-- Document whose single item carries a raw path field. -/
def c10_json : JVal :=
  JVal.obj
    [("index", JVal.obj
      [("0", JVal.obj [("name", JVal.str "foo"), ("path", JVal.str "a::b")])])]

/-- The search result produced from c10_json. -/
def c10_result : SearchResult :=
  { name := "foo", crate_name := "c", item_type := "unknown",
    path := none, description := none, score := 1 }

theorem charListLt_trans : ∀ {x y z : List Char},
    charListLt x y = true → charListLt y z = true → charListLt x z = true
  | [], [], _, h1, _ => by simp [charListLt] at h1
  | [], _ :: _, [], _, h2 => by simp [charListLt] at h2
  | [], _ :: _, _ :: _, _, _ => by simp [charListLt]
  | _ :: _, [], _, h1, _ => by simp [charListLt] at h1
  | _ :: _, _ :: _, [], _, h2 => by simp [charListLt] at h2
  | a :: as, b :: bs, c :: cs, h1, h2 => by
    simp only [charListLt] at h1 h2 ⊢
    split_ifs at h1 h2 ⊢ with hab hba hbc hcb hac hca <;>
      first
        | rfl
        | omega
        | (exact charListLt_trans h1 h2)
        | (exact absurd h1 (by simp))
        | (exact absurd h2 (by simp))

theorem charListLt_asymm : ∀ {x y : List Char},
    charListLt x y = true → charListLt y x = false
  | [], [], h => by simp [charListLt] at h
  | [], _ :: _, _ => by simp [charListLt]
  | _ :: _, [], h => by simp [charListLt] at h
  | a :: as, b :: bs, h => by
    simp only [charListLt] at h ⊢
    split_ifs at h ⊢ with h1 h2 h3 h4 <;>
      first
        | rfl
        | omega
        | (exact charListLt_asymm h)
        | (exact absurd h (by simp))

theorem charListLt_eq_of_not : ∀ {x y : List Char},
    charListLt x y = false → charListLt y x = false → x = y
  | [], [], _, _ => rfl
  | [], _ :: _, h1, _ => by simp [charListLt] at h1
  | _ :: _, [], _, h2 => by simp [charListLt] at h2
  | a :: as, b :: bs, h1, h2 => by
    simp only [charListLt] at h1 h2
    by_cases hab : a.toNat < b.toNat
    · simp [hab] at h1
    · by_cases hba : b.toNat < a.toNat
      · simp [hba] at h2
      · have hv : a = b := Char.ext (UInt32.ext (by
          simp only [Char.toNat] at hab hba
          omega))
        simp [hab, hba] at h1 h2
        have ht : as = bs := charListLt_eq_of_not h1 h2
        rw [hv, ht]

theorem strLe_total (a b : String) : strLe a b = true ∨ strLe b a = true := by
  unfold strLe strLt
  rcases hba : charListLt b.data a.data with _ | _
  · left
    simp
  · right
    simp [charListLt_asymm hba]

theorem strLe_trans {a b c : String} (h1 : strLe a b = true)
    (h2 : strLe b c = true) : strLe a c = true := by
  unfold strLe strLt at h1 h2 ⊢
  simp only [Bool.not_eq_true'] at h1 h2 ⊢
  rcases hca : charListLt c.data a.data with _ | _
  · rfl
  · rcases hab : charListLt a.data b.data with _ | _
    · have hba : a.data = b.data := charListLt_eq_of_not hab h1
      rw [← hba] at h2
      exact absurd h2 (by simp [hca])
    · have := charListLt_trans hca hab
      exact absurd h2 (by simp [this])

theorem strLe_antisymm {a b : String} (h1 : strLe a b = true)
    (h2 : strLe b a = true) : a = b := by
  unfold strLe strLt at h1 h2
  simp only [Bool.not_eq_true'] at h1 h2
  exact String.ext (charListLt_eq_of_not h2 h1)

instance : IsTotal ApiItem fpLe := ⟨fun a b => strLe_total a.full_path b.full_path⟩

instance : IsTrans ApiItem fpLe := ⟨fun _ _ _ h1 h2 => strLe_trans h1 h2⟩

instance : IsTotal (ApiItem × ApiItem) pairLe :=
  ⟨fun p q => strLe_total p.1.full_path q.1.full_path⟩

instance : IsTrans (ApiItem × ApiItem) pairLe :=
  ⟨fun _ _ _ h1 h2 => strLe_trans h1 h2⟩

/-- Two lists sorted by the same string key are equal once they are
permutations of each other and the keys are distinct. -/
theorem eq_of_perm_of_sorted_key {α : Type} {f : α → String} :
    ∀ {l₁ l₂ : List α}, l₁.Perm l₂ →
      l₁.Pairwise (fun a b => strLe (f a) (f b) = true) →
      l₂.Pairwise (fun a b => strLe (f a) (f b) = true) →
      (l₁.map f).Nodup → l₁ = l₂
  | [], l₂, hp, _, _, _ => (hp.symm.eq_nil).symm
  | a :: t₁, l₂, hp, hs₁, hs₂, hn => by
    match l₂ with
    | [] => exact absurd hp.eq_nil (by simp)
    | b :: t₂ =>
      have hab : a = b := by
        by_contra hne
        have ha2 : a ∈ b :: t₂ := hp.mem_iff.mp (List.mem_cons_self a t₁)
        have hb1 : b ∈ a :: t₁ := hp.symm.mem_iff.mp (List.mem_cons_self b t₂)
        have hat : a ∈ t₂ := by
          rcases List.mem_cons.mp ha2 with h | h
          · exact absurd h hne
          · exact h
        have hbt : b ∈ t₁ := by
          rcases List.mem_cons.mp hb1 with h | h
          · exact absurd h.symm hne
          · exact h
        have h1 : strLe (f a) (f b) = true := (List.pairwise_cons.mp hs₁).1 b hbt
        have h2 : strLe (f b) (f a) = true := (List.pairwise_cons.mp hs₂).1 a hat
        have hf : f a = f b := strLe_antisymm h1 h2
        have : f a ∉ (t₁.map f) := (List.nodup_cons.mp (by simpa using hn)).1
        exact this (hf ▸ List.mem_map_of_mem f hbt)
      subst hab
      have hp' := hp.cons_inv
      have ht : t₁ = t₂ :=
        eq_of_perm_of_sorted_key hp' (List.pairwise_cons.mp hs₁).2
          (List.pairwise_cons.mp hs₂).2 (List.nodup_cons.mp (by simpa using hn)).2
      rw [ht]

/-- Stability of find? under permutation when the predicate has at most
one satisfier. -/
theorem find?_eq_of_perm_of_unique {α : Type} {p : α → Bool} {l l' : List α}
    (hp : l.Perm l') (hu : ∀ a ∈ l, ∀ b ∈ l, p a = true → p b = true → a = b) :
    l.find? p = l'.find? p := by
  rcases h : l.find? p with _ | x
  · rcases h' : l'.find? p with _ | y
    · rfl
    · have hy : y ∈ l := hp.mem_iff.mpr (List.mem_of_find?_eq_some h')
      have := List.find?_eq_none.mp h y hy
      exact absurd (List.find?_some h') this
  · have hx : x ∈ l' := hp.mem_iff.mp (List.mem_of_find?_eq_some h)
    have hpx := List.find?_some h
    rcases h' : l'.find? p with _ | y
    · exact absurd hpx (List.find?_eq_none.mp h' x hx)
    · have hy : y ∈ l := hp.mem_iff.mpr (List.mem_of_find?_eq_some h')
      have hpy := List.find?_some h'
      rw [hu x (List.mem_of_find?_eq_some h) y hy hpx hpy]

theorem length_filterMap_eq_countP {α β : Type} (f : α → Option β) (l : List α) :
    (l.filterMap f).length = l.countP (fun x => (f x).isSome) := by
  induction l with
  | nil => rfl
  | cons hd tl ih =>
    rw [List.filterMap_cons, List.countP_cons]
    rcases h : f hd with _ | b <;> simp [h, ih]

/-- The first components of pairs produced by a filterMap that returns
the scanned element as first component form a sublist of the input. -/
theorem map_fst_filterMap_sublist {α β : Type} {F : α → Option (α × β)}
    (hF : ∀ o y, F o = some y → y.1 = o) :
    ∀ l : List α, ((l.filterMap F).map (fun p => p.1)).Sublist l
  | [] => List.Sublist.refl []
  | hd :: tl => by
    rw [List.filterMap_cons]
    rcases h : F hd with _ | y
    · exact (map_fst_filterMap_sublist hF tl).cons hd
    · have : y.1 = hd := hF hd y h
      simpa [this] using (map_fst_filterMap_sublist hF tl).cons₂ hd

theorem foldl_insertAssoc_eq :
    ∀ (items : List ApiItem) (m : List (String × ApiItem)),
      ((m.map (fun p => p.1)) ++ items.map apiKey).Nodup →
      items.foldl (fun acc item => insertAssoc acc (apiKey item) item) m =
        m ++ items.map (fun item => (apiKey item, item))
  | [], m, _ => by simp
  | it :: rest, m, h => by
    have hsplit := List.nodup_append.mp (by simpa using h)
    have hnotin : apiKey it ∉ m.map (fun p => p.1) := by
      intro hmem
      exact hsplit.2.2 hmem (List.mem_cons_self _ _)
    have hstep : insertAssoc m (apiKey it) it = m ++ [(apiKey it, it)] := by
      unfold insertAssoc
      have : m.any (fun p => decide (p.1 = apiKey it)) = false := by
        rw [List.any_eq_false]
        intro p hp
        simp only [decide_eq_true_eq]
        intro hk
        exact hnotin (hk ▸ List.mem_map_of_mem _ hp)
      rw [this]
      simp
    have hrec :
        ((m ++ [(apiKey it, it)]).map (fun p => p.1) ++ rest.map apiKey).Nodup := by
      simp only [List.map_append, List.map_cons, List.map_nil] at h ⊢
      simpa [List.append_assoc] using h
    calc (it :: rest).foldl (fun acc item => insertAssoc acc (apiKey item) item) m
        = rest.foldl (fun acc item => insertAssoc acc (apiKey item) item)
            (m ++ [(apiKey it, it)]) := by rw [List.foldl_cons, hstep]
      _ = (m ++ [(apiKey it, it)]) ++ rest.map (fun item => (apiKey item, item)) :=
            foldl_insertAssoc_eq rest (m ++ [(apiKey it, it)]) hrec
      _ = m ++ (it :: rest).map (fun item => (apiKey item, item)) := by simp

theorem buildMap_eq {items : List ApiItem} (h : (items.map apiKey).Nodup) :
    buildMap items = items.map (fun item => (apiKey item, item)) := by
  have := foldl_insertAssoc_eq items [] (by simpa using h)
  simpa [buildMap] using this

theorem lookupAssoc_map_pair (items : List ApiItem) (k : String) :
    lookupAssoc (items.map (fun item => (apiKey item, item))) k =
      items.find? (fun item => decide (apiKey item = k)) := by
  unfold lookupAssoc
  rw [List.find?_map]
  rw [Option.map_map]
  have h1 : ((fun p : String × ApiItem => decide (p.1 = k)) ∘
      (fun item => (apiKey item, item))) = fun item => decide (apiKey item = k) := rfl
  have h2 : ((fun p : String × ApiItem => p.2) ∘
      (fun item => (apiKey item, item))) = id := rfl
  rw [h1, h2]
  simp

theorem find?_self_of_nodup :
    ∀ {items : List ApiItem}, (items.map apiKey).Nodup →
      ∀ {it : ApiItem}, it ∈ items →
      items.find? (fun x => decide (apiKey x = apiKey it)) = some it
  | [], _, it, hit => absurd hit (List.not_mem_nil it)
  | hd :: tl, h, it, hit => by
    have hsplit :
        apiKey hd ∉ tl.map apiKey ∧ (tl.map apiKey).Nodup :=
      List.nodup_cons.mp h
    by_cases he : apiKey hd = apiKey it
    · rw [List.find?_cons_of_pos _ (by simpa using he)]
      rcases List.mem_cons.mp hit with rfl | htl
      · rfl
      · exact absurd (he ▸ List.mem_map_of_mem apiKey htl) hsplit.1
    · rw [List.find?_cons_of_neg _ (by simpa using he)]
      rcases List.mem_cons.mp hit with rfl | htl
      · exact absurd rfl he
      · exact find?_self_of_nodup hsplit.2 htl

theorem filterMap_filter_eq {α β : Type} (p : α → Bool) (f : α → Option β) :
    ∀ l : List α,
      (l.filter p).filterMap f = l.filterMap (fun x => if p x then f x else none)
  | [] => rfl
  | hd :: tl => by
    rcases h : p hd with _ | _ <;>
      simp [List.filter_cons, h, List.filterMap_cons, filterMap_filter_eq p f tl]

theorem compare_added_eq {old_items new_items : List ApiItem}
    (ho : (old_items.map apiKey).Nodup) (hn : (new_items.map apiKey).Nodup) :
    (compare_api_items old_items new_items).1 =
      new_items.filter (fun it => !(decide (apiKey it ∈ old_items.map apiKey))) := by
  have ho' := buildMap_eq ho
  have hn' := buildMap_eq hn
  simp only [compare_api_items, ho', hn', List.map_map]
  have hfst : ((fun p : String × ApiItem => p.1) ∘
      (fun item => (apiKey item, item))) = apiKey := rfl
  rw [hfst, List.filter_map, List.filterMap_map]
  rw [List.filterMap_congr (g := fun it => some it) ?_]
  · exact List.filterMap_some _
  · intro it hmem
    have hit : it ∈ new_items := (List.mem_filter.mp hmem).1
    show lookupAssoc (new_items.map (fun item => (apiKey item, item))) (apiKey it) = some it
    rw [lookupAssoc_map_pair]
    exact find?_self_of_nodup hn hit

theorem compare_removed_eq {old_items new_items : List ApiItem}
    (ho : (old_items.map apiKey).Nodup) (hn : (new_items.map apiKey).Nodup) :
    (compare_api_items old_items new_items).2.1 =
      old_items.filter (fun it => !(decide (apiKey it ∈ new_items.map apiKey))) := by
  have ho' := buildMap_eq ho
  have hn' := buildMap_eq hn
  simp only [compare_api_items, ho', hn', List.map_map]
  have hfst : ((fun p : String × ApiItem => p.1) ∘
      (fun item => (apiKey item, item))) = apiKey := rfl
  rw [hfst, List.filter_map, List.filterMap_map]
  rw [List.filterMap_congr (g := fun it => some it) ?_]
  · exact List.filterMap_some _
  · intro it hmem
    have hit : it ∈ old_items := (List.mem_filter.mp hmem).1
    show lookupAssoc (old_items.map (fun item => (apiKey item, item))) (apiKey it) = some it
    rw [lookupAssoc_map_pair]
    exact find?_self_of_nodup ho hit

theorem compare_modified_eq {old_items new_items : List ApiItem}
    (ho : (old_items.map apiKey).Nodup) (hn : (new_items.map apiKey).Nodup) :
    (compare_api_items old_items new_items).2.2 =
      old_items.filterMap (fun o =>
        match new_items.find? (fun n => decide (apiKey n = apiKey o)) with
        | some n => if o.signature ≠ n.signature then some (o, n) else none
        | none => none) := by
  have ho' := buildMap_eq ho
  have hn' := buildMap_eq hn
  simp only [compare_api_items, ho', hn', List.map_map]
  have hfst : ((fun p : String × ApiItem => p.1) ∘
      (fun item => (apiKey item, item))) = apiKey := rfl
  rw [hfst, List.filter_map, List.filterMap_map, filterMap_filter_eq]
  apply List.filterMap_congr
  intro o hmem
  have hlookup : lookupAssoc (old_items.map (fun item => (apiKey item, item))) (apiKey o)
      = some o := by
    rw [lookupAssoc_map_pair]
    exact find?_self_of_nodup ho hmem
  have hlookup2 : lookupAssoc (new_items.map (fun item => (apiKey item, item))) (apiKey o)
      = new_items.find? (fun n => decide (apiKey n = apiKey o)) :=
    lookupAssoc_map_pair _ _
  rcases hfind : new_items.find? (fun n => decide (apiKey n = apiKey o)) with _ | n
  · have hnotmem : apiKey o ∉ new_items.map apiKey := by
      intro hk
      rcases List.mem_map.mp hk with ⟨n, hn2, he⟩
      exact absurd (List.find?_eq_none.mp hfind n hn2) (by simpa using he)
    simp only [Function.comp]
    rw [if_neg (by simpa using hnotmem)]
  · have hmem2 : apiKey o ∈ new_items.map apiKey := by
      have hn2 := List.mem_of_find?_eq_some hfind
      have he : apiKey n = apiKey o := by simpa using List.find?_some hfind
      exact he ▸ List.mem_map_of_mem apiKey hn2
    simp only [Function.comp]
    rw [if_pos (by simpa using hmem2), hlookup, hlookup2, hfind]

/-- Counterexample to claim C8 as stated: the added sequence of
diff(A, B) and the removed sequence of diff(B, A) are produced by two
independently seeded hash sets over the same keys, and under two
admissible storage orders of those sets the two sequences differ, so
sequence equality is not guaranteed by the program. -/
theorem c8_counterexample :
    (c8_order1.Perm ((buildMap [c1_itemA, c1_itemB]).map (fun p => p.1)) ∧
     c8_order2.Perm ((buildMap [c1_itemA, c1_itemB]).map (fun p => p.1))) ∧
    diff_only_keys c8_order1 ((buildMap ([] : List ApiItem)).map (fun p => p.1))
        (buildMap [c1_itemA, c1_itemB]) ≠
      diff_only_keys c8_order2 ((buildMap ([] : List ApiItem)).map (fun p => p.1))
        (buildMap [c1_itemA, c1_itemB]) :=
  ⟨⟨by decide, by decide⟩, by decide⟩

/-- Claim C8 amended: the added sequence of diff(A, B) and the removed
sequence of diff(B, A) both iterate the key set of B minus the key set
of A and look the survivors up in the key-to-item map of B, so under
every pair of admissible hash-set storage orders the two sequences are
permutations of each other — equal as multisets — and likewise for
removed and added; compare_api_items is this computation at the
insertion order of the model. -/
theorem c8_diff_symmetry_up_to_order :
    (∀ A B : List ApiItem,
      (compare_api_items A B).1 =
        diff_only_keys ((buildMap B).map (fun p => p.1))
          ((buildMap A).map (fun p => p.1)) (buildMap B) ∧
      (compare_api_items A B).2.1 =
        diff_only_keys ((buildMap A).map (fun p => p.1))
          ((buildMap B).map (fun p => p.1)) (buildMap A)) ∧
    (∀ (A B : List ApiItem) (o₁ o₂ : List String),
      o₁.Perm ((buildMap B).map (fun p => p.1)) →
      o₂.Perm ((buildMap B).map (fun p => p.1)) →
      (diff_only_keys o₁ ((buildMap A).map (fun p => p.1)) (buildMap B)).Perm
        (diff_only_keys o₂ ((buildMap A).map (fun p => p.1)) (buildMap B))) ∧
    (∀ A B : List ApiItem,
      ((compare_api_items A B).1).Perm ((compare_api_items B A).2.1) ∧
      ((compare_api_items A B).2.1).Perm ((compare_api_items B A).1)) := by
  refine ⟨fun A B => ⟨rfl, rfl⟩, ?_, fun A B => ⟨List.Perm.refl _, List.Perm.refl _⟩⟩
  intro A B o₁ o₂ h₁ h₂
  exact List.Perm.filterMap _ (List.Perm.filter _ (h₁.trans h₂.symm))

/-- Witness for C8 on the two concrete storage orders of the
counterexample: the sequences they produce are permutations of each
other. -/
theorem c8_diff_symmetry_up_to_order_witness :
    (c8_order1.Perm ((buildMap [c1_itemA, c1_itemB]).map (fun p => p.1)) ∧
     c8_order2.Perm ((buildMap [c1_itemA, c1_itemB]).map (fun p => p.1))) ∧
    (diff_only_keys c8_order1 ((buildMap ([] : List ApiItem)).map (fun p => p.1))
        (buildMap [c1_itemA, c1_itemB])).Perm
      (diff_only_keys c8_order2 ((buildMap ([] : List ApiItem)).map (fun p => p.1))
        (buildMap [c1_itemA, c1_itemB])) :=
  ⟨⟨by decide, by decide⟩,
    c8_diff_symmetry_up_to_order.2.1 [] [c1_itemA, c1_itemB] c8_order1 c8_order2
      (by decide) (by decide)⟩

/-- Claim C4: extract_api_items and fuzzy_search_json succeed exactly
when the top-level index field is present and is an object; no
individual item shape can make them fail. -/
theorem c4_index_error_iff (matcher : String → String → Option Int)
    (json_data : JVal) (crate_name query : String) :
    ((extract_api_items json_data).isOk = true ↔
      ((jGet json_data "index").bind asObj).isSome = true) ∧
    ((fuzzy_search_json matcher json_data crate_name query).isOk = true ↔
      ((jGet json_data "index").bind asObj).isSome = true) := by
  rcases h : (jGet json_data "index").bind asObj with _ | index <;>
    simp [extract_api_items, fuzzy_search_json, h, Except.isOk, Except.toBool]

/-- Claim C5: format_type is total, and any input matching none of the
three modeled key patterns renders as the placeholder token. -/
theorem c5_format_type_fallback (v : JVal) (h : ¬ modeled_shape v) :
    format_type v = "..." := by
  have h1 : (jGet v "resolved_path").bind (fun rp => (jGet rp "name").bind asStr) = none :=
    Option.not_isSome_iff_eq_none.mp (fun hh => h (Or.inl hh))
  have h2 : (jGet v "primitive").bind asStr = none :=
    Option.not_isSome_iff_eq_none.mp (fun hh => h (Or.inr (Or.inl hh)))
  have h3 : jGet v "borrowed_ref" = none :=
    Option.not_isSome_iff_eq_none.mp (fun hh => h (Or.inr (Or.inr hh)))
  rw [format_type, h1, h2, h3]

/-- Witness for C5 at a deliberately unmodeled shape. -/
theorem c5_format_type_fallback_witness :
    ¬ modeled_shape c5_unmodeled ∧ format_type c5_unmodeled = "..." :=
  ⟨by decide, c5_format_type_fallback c5_unmodeled (by decide)⟩

/-- Claim C10: every search result produced by fuzzy_search_json has an
empty path, whatever the raw item carried. -/
theorem c10_search_path_none (matcher : String → String → Option Int)
    (json_data : JVal) (crate_name query : String)
    (results : List SearchResult)
    (h : fuzzy_search_json matcher json_data crate_name query = .ok results) :
    ∀ r ∈ results, r.path = none := by
  unfold fuzzy_search_json at h
  rcases hidx : (jGet json_data "index").bind asObj with _ | index
  · rw [hidx] at h
    exact absurd h (by simp)
  · rw [hidx] at h
    have hres : results = index.filterMap
        (fun p => search_entry matcher crate_name query p.2) := by
      cases h
      rfl
    intro r hr
    rw [hres] at hr
    rcases List.mem_filterMap.mp hr with ⟨p, _, hse⟩
    unfold search_entry at hse
    rcases hname : (jGet p.2 "name").bind asStr with _ | nm
    · simp [hname] at hse
    · simp only [hname] at hse
      rcases hm : matcher nm query with _ | sc
      · simp [hm] at hse
      · simp only [hm, Option.some.injEq] at hse
        rw [← hse]

/-- Witness for C10 on a concrete index whose item carries a raw path
field. -/
theorem c10_search_path_none_witness : c10_result.path = none :=
  c10_search_path_none c10_matcher c10_json "c" "q" [c10_result] rfl
    c10_result (List.mem_singleton.mpr rfl)

/-- Counterexample to claim C1 as stated: the sequences returned by
compare_api_items itself are in mapping iteration order, not sorted by
full path, and permuting the input changes them. -/
theorem c1_counterexample :
    ¬ List.Sorted fpLe ((compare_api_items [] [c1_itemB, c1_itemA]).1) ∧
    (compare_api_items [] [c1_itemB, c1_itemA]).1 ≠
      (compare_api_items [] [c1_itemA, c1_itemB]).1 := by
  constructor
  · decide
  · decide

/-- Counterexample to claim C3 as stated: an entry with an empty inner
tag set does contribute an ApiItem (with empty kind), although the
claim requires a non-empty tag set. -/
theorem c3_counterexample :
    extract_api_items c3_json =
      Except.ok [{ name := "x", item_type := "", path := [], signature := "" }] ∧
    c3_index.countP (fun e => qualifies_claimed e.2) = 0 := by
  constructor
  · rfl
  · decide

/-- Counterexample to claim C7 as stated: for a plain struct whose field
identifiers are not strings, the rendered count is the number of string
entries, not the number of entries. -/
theorem c7_counterexample :
    (jGet c7_bad_inner "fields").bind asArr = some [JVal.num 1, JVal.num 2] ∧
    extract_signature "Struct" (some c7_bad_inner) = "\x7b 0 fields \x7d" ∧
    extract_signature "Struct" (some c7_bad_inner) ≠ "\x7b 2 fields \x7d" := by
  refine ⟨rfl, ?_, ?_⟩
  · decide
  · decide

/-- Claim C2: with distinct identity keys on each side,
compare_api_items classifies items as added exactly when their key is
only in the new side, removed exactly when only in the old side,
modified exactly when the key is on both sides with differing
signatures (the pair then shares the key), an unchanged key appears in
no output, and no key appears in two outputs. -/
theorem c2_diff_classification (old_items new_items : List ApiItem)
    (ho : (old_items.map apiKey).Nodup) (hn : (new_items.map apiKey).Nodup) :
    (∀ it, it ∈ (compare_api_items old_items new_items).1 ↔
      (it ∈ new_items ∧ apiKey it ∉ old_items.map apiKey)) ∧
    (∀ it, it ∈ (compare_api_items old_items new_items).2.1 ↔
      (it ∈ old_items ∧ apiKey it ∉ new_items.map apiKey)) ∧
    (∀ o n, (o, n) ∈ (compare_api_items old_items new_items).2.2 ↔
      (o ∈ old_items ∧ n ∈ new_items ∧ apiKey o = apiKey n ∧
        o.signature ≠ n.signature)) ∧
    (∀ o n, o ∈ old_items → n ∈ new_items → apiKey o = apiKey n →
      o.signature = n.signature →
      (∀ it ∈ (compare_api_items old_items new_items).1, apiKey it ≠ apiKey o) ∧
      (∀ it ∈ (compare_api_items old_items new_items).2.1, apiKey it ≠ apiKey o) ∧
      (∀ p ∈ (compare_api_items old_items new_items).2.2, apiKey p.1 ≠ apiKey o)) ∧
    (∀ k,
      ¬((∃ it ∈ (compare_api_items old_items new_items).1, apiKey it = k) ∧
        (∃ it ∈ (compare_api_items old_items new_items).2.1, apiKey it = k)) ∧
      ¬((∃ it ∈ (compare_api_items old_items new_items).1, apiKey it = k) ∧
        (∃ p ∈ (compare_api_items old_items new_items).2.2, apiKey p.1 = k)) ∧
      ¬((∃ it ∈ (compare_api_items old_items new_items).2.1, apiKey it = k) ∧
        (∃ p ∈ (compare_api_items old_items new_items).2.2, apiKey p.1 = k))) := by
  have hA : ∀ it, it ∈ (compare_api_items old_items new_items).1 ↔
      (it ∈ new_items ∧ apiKey it ∉ old_items.map apiKey) := by
    intro it
    rw [compare_added_eq ho hn, List.mem_filter]
    simp
  have hR : ∀ it, it ∈ (compare_api_items old_items new_items).2.1 ↔
      (it ∈ old_items ∧ apiKey it ∉ new_items.map apiKey) := by
    intro it
    rw [compare_removed_eq ho hn, List.mem_filter]
    simp
  have hM : ∀ o n, (o, n) ∈ (compare_api_items old_items new_items).2.2 ↔
      (o ∈ old_items ∧ n ∈ new_items ∧ apiKey o = apiKey n ∧
        o.signature ≠ n.signature) := by
    intro o n
    rw [compare_modified_eq ho hn]
    constructor
    · intro hmem
      rcases List.mem_filterMap.mp hmem with ⟨o', ho', heq⟩
      rcases hfind : new_items.find? (fun x => decide (apiKey x = apiKey o')) with _ | n'
      · simp only [hfind] at heq
        exact Option.noConfusion heq
      · simp only [hfind] at heq
        by_cases hsig : o'.signature ≠ n'.signature
        · rw [if_pos hsig] at heq
          have hpair : o' = o ∧ n' = n := by
            have := Option.some.inj heq
            exact ⟨congrArg Prod.fst this, congrArg Prod.snd this⟩
          obtain ⟨rfl, rfl⟩ := hpair
          have hkeq : apiKey n' = apiKey o' := by
            simpa using List.find?_some hfind
          exact ⟨ho', List.mem_of_find?_eq_some hfind, hkeq.symm, hsig⟩
        · rw [if_neg hsig] at heq
          exact absurd heq (by simp)

    · rintro ⟨hoo, hnn, hk, hsig⟩
      apply List.mem_filterMap.mpr
      refine ⟨o, hoo, ?_⟩
      have hfind : new_items.find? (fun x => decide (apiKey x = apiKey o)) = some n := by
        have hself := find?_self_of_nodup hn hnn
        have hpred : (fun x => decide (apiKey x = apiKey o)) =
            (fun x => decide (apiKey x = apiKey n)) := by rw [hk]
        rw [hpred]
        exact hself
      simp only [hfind]
      rw [if_pos hsig]
  refine ⟨hA, hR, hM, ?_, ?_⟩
  · intro o n hoo hnn hk hsig
    refine ⟨?_, ?_, ?_⟩
    · intro it hit he
      have := (hA it).mp hit
      exact this.2 (he ▸ List.mem_map_of_mem apiKey hoo)
    · intro it hit he
      have := (hR it).mp hit
      exact this.2 (he ▸ hk ▸ List.mem_map_of_mem apiKey hnn)
    · rintro ⟨p1, p2⟩ hp he
      have hm := (hM p1 p2).mp hp
      have h1 : p1 = o := List.inj_on_of_nodup_map ho hm.1 hoo he
      have h2 : p2 = n := by
        apply List.inj_on_of_nodup_map hn hm.2.1 hnn
        rw [← hm.2.2.1, he, hk]
      rw [h1, h2] at hm
      exact hm.2.2.2 hsig
  · intro k
    refine ⟨?_, ?_, ?_⟩
    · rintro ⟨⟨a, ha, hak⟩, ⟨r, hr, hrk⟩⟩
      have h1 := (hA a).mp ha
      have h2 := (hR r).mp hr
      exact h1.2 (hak ▸ hrk ▸ List.mem_map_of_mem apiKey h2.1)
    · rintro ⟨⟨a, ha, hak⟩, ⟨p, hp, hpk⟩⟩
      have h1 := (hA a).mp ha
      have h2 := (hM p.1 p.2).mp hp
      exact h1.2 (hak ▸ hpk ▸ List.mem_map_of_mem apiKey h2.1)
    · rintro ⟨⟨r, hr, hrk⟩, ⟨p, hp, hpk⟩⟩
      have h1 := (hR r).mp hr
      have h2 := (hM p.1 p.2).mp hp
      apply h1.2
      rw [hrk, ← hpk, h2.2.2.1]
      exact List.mem_map_of_mem apiKey h2.2.1

/-- Witness for C2 on a concrete pair of sides with one modified and
one added item. -/
theorem c2_diff_classification_witness :
    ((c2_old_list.map apiKey).Nodup ∧ (c2_new_list.map apiKey).Nodup) ∧
    ((c2_new_list.get ⟨1, by decide⟩) ∈ (compare_api_items c2_old_list c2_new_list).1 ↔
      ((c2_new_list.get ⟨1, by decide⟩) ∈ c2_new_list ∧
        apiKey (c2_new_list.get ⟨1, by decide⟩) ∉ c2_old_list.map apiKey)) :=
  ⟨⟨by decide, by decide⟩,
    (c2_diff_classification c2_old_list c2_new_list (by decide) (by decide)).1 _⟩

/-- Claim C3 amended: extract_api_items emits exactly one ApiItem per
index entry with a string name, an object inner payload (possibly with
an empty tag set, which yields an empty kind) and a first tag key other
than Import and ProcMacro. -/
theorem c3_extract_count (json_data : JVal) (index : List (String × JVal))
    (hidx : (jGet json_data "index").bind asObj = some index) :
    ∃ items, extract_api_items json_data = Except.ok items ∧
      items.length = index.countP (fun e => qualifies e.2) := by
  refine ⟨index.filterMap (fun p => extract_entry (build_id_to_path index) p.1 p.2),
    by rw [extract_api_items, hidx], ?_⟩
  rw [length_filterMap_eq_countP]
  apply List.countP_congr
  intro p _
  have hq : ∀ (m : List (String × List String)) (id : String) (item : JVal),
      (extract_entry m id item).isSome = qualifies item := by
    intro m id item
    unfold extract_entry qualifies
    rcases (jGet item "name").bind asStr with _ | nm
    · rfl
    · rcases (jGet item "inner").bind asObj with _ | fs
      · rfl
      · by_cases hty : ((fs.head?.map (fun q => q.1)).getD "") = "Import" ∨
            ((fs.head?.map (fun q => q.1)).getD "") = "ProcMacro"
        · simp [hty]
        · simp [hty]
  simp [hq]

/-- Witness for C3 on the concrete document whose entry has an empty
inner tag set. -/
theorem c3_extract_count_witness :
    ∃ items, extract_api_items c3_json = Except.ok items ∧
      items.length = c3_index.countP (fun e => qualifies e.2) :=
  c3_extract_count c3_json c3_index rfl

/-- Claim C9: search keeps exactly the named entries the scorer accepts,
then sorts all accumulated results by score descending and truncates
them to the caller-supplied limit. -/
theorem c9_search_ranked_truncated (matcher : String → String → Option Int)
    (query : String) :
    (∀ (json_data : JVal) (index : List (String × JVal)) (crate_name : String)
        (results : List SearchResult),
        (jGet json_data "index").bind asObj = some index →
        fuzzy_search_json matcher json_data crate_name query = .ok results →
        ∀ r, r ∈ results ↔ ∃ p ∈ index, ∃ nm s,
          (jGet p.2 "name").bind asStr = some nm ∧ matcher nm query = some s ∧
          r = { name := nm, crate_name := crate_name,
                item_type := (((jGet p.2 "inner").bind asObj).bind
                  (fun fs => fs.head?.map (fun q => q.1))).getD "unknown",
                path := none,
                description := (jGet p.2 "docs").bind asStr,
                score := s }) ∧
    (∀ (crates : List (String × JVal)) (limit : Nat)
        (out all : List SearchResult),
        gather_results matcher query crates = .ok all →
        search_docs_core matcher crates query limit = .ok out →
        List.Sorted scoreDescLe out ∧ out.length = min limit all.length ∧
        ∀ r ∈ out, r ∈ all) := by
  constructor
  · intro json_data index crate_name results hidx hok r
    unfold fuzzy_search_json at hok
    simp only [hidx] at hok
    have hres : results =
        index.filterMap (fun p => search_entry matcher crate_name query p.2) :=
      (Except.ok.inj hok).symm
    have hse_iff : ∀ (item : JVal) (x : SearchResult),
        search_entry matcher crate_name query item = some x ↔
        ∃ nm s, (jGet item "name").bind asStr = some nm ∧
          matcher nm query = some s ∧
          x = { name := nm, crate_name := crate_name,
                item_type := (((jGet item "inner").bind asObj).bind
                  (fun fs => fs.head?.map (fun q => q.1))).getD "unknown",
                path := none,
                description := (jGet item "docs").bind asStr,
                score := s } := by
      intro item x
      unfold search_entry
      rcases h1 : (jGet item "name").bind asStr with _ | nm
      · simp [h1]
      · simp only [h1, Option.some.injEq]
        rcases h2 : matcher nm query with _ | s
        · simp only [h2]
          constructor
          · intro h
            exact Option.noConfusion h
          · rintro ⟨nm', s', hnm, hs, hx⟩
            obtain rfl := hnm
            rw [h2] at hs
            exact Option.noConfusion hs
        · simp only [h2]
          constructor
          · intro h
            exact ⟨nm, s, rfl, h2, (Option.some.inj h).symm⟩
          · rintro ⟨nm', s', hnm, hs, hx⟩
            obtain rfl := hnm
            rw [h2] at hs
            obtain rfl : s = s' := Option.some.inj hs
            rw [hx]
    rw [hres, List.mem_filterMap]
    constructor
    · rintro ⟨p, hp, hser⟩
      exact ⟨p, hp, (hse_iff p.2 r).mp hser⟩
    · rintro ⟨p, hp, hex⟩
      exact ⟨p, hp, (hse_iff p.2 r).mpr hex⟩
  · intro crates limit out all hgather hcore
    unfold search_docs_core at hcore
    simp only [hgather] at hcore
    have hout : out = (List.insertionSort scoreDescLe all).take limit :=
      (Except.ok.inj hcore).symm
    subst hout
    refine ⟨?_, ?_, ?_⟩
    · exact List.Pairwise.sublist (List.take_sublist _ _)
        (List.sorted_insertionSort scoreDescLe all)
    · simp [List.length_take, (List.perm_insertionSort scoreDescLe all).length_eq]
    · intro r hr
      exact (List.perm_insertionSort scoreDescLe all).mem_iff.mp
        (List.mem_of_mem_take hr)

/-- Witness for C9 on a concrete index with two accepted names, one
rejected name and one unnamed entry. -/
theorem c9_search_ranked_truncated_witness :
    c9_iter ∈ c9_out ∧ List.Sorted scoreDescLe c9_out ∧
    c9_out.length = min 5 c9_out.length ∧ (∀ r ∈ c9_out, r ∈ c9_out) := by
  have h := c9_search_ranked_truncated c9_matcher "itr"
  refine ⟨?_, h.2 [("c", c9_json)] 5 c9_out c9_out rfl rfl⟩
  exact (h.1 c9_json c9_index "c" c9_out rfl rfl c9_iter).mpr
    ⟨("1", JVal.obj [("name", JVal.str "iter")]), List.mem_cons_self _ _,
      "iter", 2, rfl, rfl, rfl⟩

theorem filterMap_renderParam_map (params : List (String × JVal)) :
    (params.map (fun p => JVal.arr [JVal.str p.1, p.2])).filterMap renderParam =
      params.map (fun p => p.1 ++ ": " ++ format_type p.2) := by
  induction params with
  | nil => rfl
  | cons hd tl ih =>
    have hhd : renderParam (JVal.arr [JVal.str hd.1, hd.2]) =
        some (hd.1 ++ ": " ++ format_type hd.2) := rfl
    simp only [List.map_cons, List.filterMap_cons, hhd, ih]

/-- Claim C6: for Function and Method items with a decl carrying a
well-formed parameter array and an output, extract_signature renders
the comma-separated parameter list in parentheses and appends the arrow
and return type exactly when the output is non-null and does not render
as the unit type; a parameter with a missing name or type contributes
nothing, and a missing output or decl contributes nothing. -/
theorem c6_function_signature :
    (∀ (item_type : String), (item_type = "Function" ∨ item_type = "Method") →
      ∀ (inner decl output : JVal) (params : List (String × JVal)),
      jGet inner "decl" = some decl →
      (jGet decl "inputs").bind asArr =
        some (params.map (fun p => JVal.arr [JVal.str p.1, p.2])) →
      jGet decl "output" = some output →
      extract_signature item_type (some inner) =
        "(" ++ joinSep ", " (params.map (fun p => p.1 ++ ": " ++ format_type p.2)) ++ ")" ++
        (if isNull output = true ∨ format_type output = "()" then ""
         else " -> " ++ format_type output)) ∧
    (∀ input, (arrGet input 0).bind asStr = none → renderParam input = none) ∧
    (∀ input, arrGet input 1 = none → renderParam input = none) ∧
    (∀ (item_type : String), (item_type = "Function" ∨ item_type = "Method") →
      ∀ (inner decl : JVal) (params : List (String × JVal)),
      jGet inner "decl" = some decl →
      (jGet decl "inputs").bind asArr =
        some (params.map (fun p => JVal.arr [JVal.str p.1, p.2])) →
      jGet decl "output" = none →
      extract_signature item_type (some inner) =
        "(" ++ joinSep ", " (params.map (fun p => p.1 ++ ": " ++ format_type p.2)) ++ ")") ∧
    (∀ (item_type : String), (item_type = "Function" ∨ item_type = "Method") →
      ∀ (inner : JVal), jGet inner "decl" = none →
      extract_signature item_type (some inner) = "") := by
  refine ⟨?_, ?_, ?_, ?_, ?_⟩
  · intro item_type hty inner decl output params hdecl hinputs houtput
    have hext : extract_signature item_type (some inner) = functionSignature inner := by
      rcases hty with rfl | rfl <;> rfl
    rw [hext]
    unfold functionSignature
    simp only [hdecl, hinputs, houtput, filterMap_renderParam_map]
    rcases hnull : isNull output with _ | _
    · by_cases hunit : format_type output = "()"
      · rw [if_pos (Or.inr hunit)]
        simp [hnull, hunit, joinSep, String.append_empty]
      · rw [if_neg (by simp [hnull, hunit])]
        simp only [hnull, hunit, Bool.false_eq_true, if_false, ne_eq,
          not_false_eq_true, if_true, List.singleton_append]
        have hj : ∀ a b : String, joinSep " " [a, b] = a ++ " " ++ b := fun a b => rfl
        rw [hj, String.append_assoc, ← String.append_assoc " " "-> " (format_type output)]
        rfl
    · simp [joinSep, String.append_empty]
  · intro input h
    unfold renderParam
    simp [h]
  · intro input h
    unfold renderParam
    rcases (arrGet input 0).bind asStr with _ | nm
    · rfl
    · simp [h]
  · intro item_type hty inner decl params hdecl hinputs houtput
    have hext : extract_signature item_type (some inner) = functionSignature inner := by
      rcases hty with rfl | rfl <;> rfl
    rw [hext]
    unfold functionSignature
    simp only [hdecl, hinputs, houtput, filterMap_renderParam_map, List.append_nil]
    rfl
  · intro item_type hty inner hdecl
    have hext : extract_signature item_type (some inner) = functionSignature inner := by
      rcases hty with rfl | rfl <;> rfl
    rw [hext]
    unfold functionSignature
    simp only [hdecl]
    rfl

/-- Witness for C6 at the concrete example of the specification. -/
theorem c6_function_signature_witness :
    extract_signature "Function" (some c6_inner) = "(x: i32) -> i32" := by
  have h := c6_function_signature.1 "Function" (Or.inl rfl) c6_inner c6_decl
    c6_param_type [("x", c6_param_type)] rfl rfl rfl
  have hft : format_type c6_param_type = "i32" := by
    rw [format_type]
    rfl
  rw [h]
  simp only [List.map_cons, List.map_nil, hft, joinSep]
  rw [if_neg (by simp [isNull, c6_param_type])]
  rfl

/-- Claim C7 amended: a plain struct renders the count of string
entries of its fields array, a tuple struct the count of all entries,
a unit struct the empty string; the two-versus-three-fields diff
example holds with string field identifiers. -/
theorem c7_struct_signature :
    (∀ inner fs, (jGet inner "kind").bind asStr = some "plain" →
       (jGet inner "fields").bind asArr = some fs →
       extract_signature "Struct" (some inner) =
         "\x7b " ++ toString (fs.filterMap asStr).length ++ " fields \x7d") ∧
    (∀ inner fs, (jGet inner "kind").bind asStr = some "tuple" →
       (jGet inner "fields").bind asArr = some fs →
       extract_signature "Struct" (some inner) =
         "(" ++ toString fs.length ++ " fields)") ∧
    (∀ inner, (jGet inner "kind").bind asStr = some "unit" →
       extract_signature "Struct" (some inner) = "") ∧
    (extract_api_items c7_old_json = Except.ok [c7_bar_old] ∧
     extract_api_items c7_new_json = Except.ok [c7_bar_new] ∧
     (compare_api_items [c7_bar_old] [c7_bar_new]).2.2 = [(c7_bar_old, c7_bar_new)] ∧
     c7_bar_old.signature = "\x7b 2 fields \x7d" ∧
     c7_bar_new.signature = "\x7b 3 fields \x7d") := by
  refine ⟨?_, ?_, ?_, rfl, rfl, rfl, rfl, rfl⟩
  · intro inner fs h1 h2
    have hext : extract_signature "Struct" (some inner) = structSignature inner := rfl
    rw [hext]
    unfold structSignature
    simp [h1, h2]
  · intro inner fs h1 h2
    have hext : extract_signature "Struct" (some inner) = structSignature inner := rfl
    rw [hext]
    unfold structSignature
    simp [h1, h2]
  · intro inner h1
    have hext : extract_signature "Struct" (some inner) = structSignature inner := rfl
    rw [hext]
    unfold structSignature
    simp [h1]

/-- Witness for C7 on the three concrete struct payloads. -/
theorem c7_struct_signature_witness :
    extract_signature "Struct" (some c7_plain_inner) = "\x7b 2 fields \x7d" ∧
    extract_signature "Struct" (some c7_tuple_inner) = "(3 fields)" ∧
    extract_signature "Struct" (some c7_unit_inner) = "" := by
  refine ⟨?_, ?_, ?_⟩
  · exact (c7_struct_signature.1 c7_plain_inner
      [JVal.str "f0", JVal.str "f1"] rfl rfl).trans (by decide)
  · exact (c7_struct_signature.2.1 c7_tuple_inner
      [JVal.num 1, JVal.num 2, JVal.num 3] rfl rfl).trans (by decide)
  · exact c7_struct_signature.2.2.1 c7_unit_inner rfl

theorem insertionSort_fpLe_eq {l₁ l₂ : List ApiItem} (hp : l₁.Perm l₂)
    (hn : (l₂.map ApiItem.full_path).Nodup) :
    List.insertionSort fpLe l₁ = List.insertionSort fpLe l₂ := by
  apply eq_of_perm_of_sorted_key (f := ApiItem.full_path)
  · exact (List.perm_insertionSort fpLe l₁).trans
      (hp.trans (List.perm_insertionSort fpLe l₂).symm)
  · exact List.sorted_insertionSort fpLe l₁
  · exact List.sorted_insertionSort fpLe l₂
  · have hperm : ((List.insertionSort fpLe l₁).map ApiItem.full_path).Perm
        (l₂.map ApiItem.full_path) :=
      ((List.perm_insertionSort fpLe l₁).trans hp).map _
    exact hperm.symm.nodup hn

theorem insertionSort_pairLe_eq {l₁ l₂ : List (ApiItem × ApiItem)} (hp : l₁.Perm l₂)
    (hn : (l₂.map (fun p => p.1.full_path)).Nodup) :
    List.insertionSort pairLe l₁ = List.insertionSort pairLe l₂ := by
  apply eq_of_perm_of_sorted_key (f := fun p : ApiItem × ApiItem => p.1.full_path)
  · exact (List.perm_insertionSort pairLe l₁).trans
      (hp.trans (List.perm_insertionSort pairLe l₂).symm)
  · exact List.sorted_insertionSort pairLe l₁
  · exact List.sorted_insertionSort pairLe l₂
  · have hperm : ((List.insertionSort pairLe l₁).map (fun p => p.1.full_path)).Perm
        (l₂.map (fun p => p.1.full_path)) :=
      ((List.perm_insertionSort pairLe l₁).trans hp).map _
    exact hperm.symm.nodup hn

/-- Claim C1 amended: compare_api_items itself returns the three
sequences in mapping iteration order; the sorting happens in
display_diff, which orders added and removed ascending by full path and
modified ascending by the old item full path.  With distinct keys and
distinct full paths on each input side, these displayed sequences are
sorted and identical for any permutation of the inputs. -/
theorem c1_display_sorted_deterministic
    (old_items new_items old_shuffled new_shuffled : List ApiItem)
    (hko : (old_items.map apiKey).Nodup)
    (hkn : (new_items.map apiKey).Nodup)
    (hfo : (old_items.map ApiItem.full_path).Nodup)
    (hfn : (new_items.map ApiItem.full_path).Nodup)
    (hpo : old_shuffled.Perm old_items)
    (hpn : new_shuffled.Perm new_items) :
    List.Sorted fpLe (diff_sorted old_items new_items).1 ∧
    List.Sorted fpLe (diff_sorted old_items new_items).2.1 ∧
    List.Sorted pairLe (diff_sorted old_items new_items).2.2 ∧
    diff_sorted old_shuffled new_shuffled = diff_sorted old_items new_items := by
  have hko' : (old_shuffled.map apiKey).Nodup := (hpo.map apiKey).symm.nodup hko
  have hkn' : (new_shuffled.map apiKey).Nodup := (hpn.map apiKey).symm.nodup hkn
  have hAsh : (compare_api_items old_shuffled new_shuffled).1 =
      new_shuffled.filter (fun it => !(decide (apiKey it ∈ old_items.map apiKey))) := by
    rw [compare_added_eq hko' hkn']
    apply List.filter_congr
    intro x _
    exact congrArg (fun b => !b) (decide_eq_decide.mpr (hpo.map apiKey).mem_iff)
  have hAit : (compare_api_items old_items new_items).1 =
      new_items.filter (fun it => !(decide (apiKey it ∈ old_items.map apiKey))) :=
    compare_added_eq hko hkn
  have hA : List.insertionSort fpLe (compare_api_items old_shuffled new_shuffled).1 =
      List.insertionSort fpLe (compare_api_items old_items new_items).1 := by
    rw [hAsh, hAit]
    exact insertionSort_fpLe_eq
      (List.Perm.filter _ hpn)
      (List.Nodup.sublist (List.Sublist.map _ (List.filter_sublist _)) hfn)
  have hRsh : (compare_api_items old_shuffled new_shuffled).2.1 =
      old_shuffled.filter (fun it => !(decide (apiKey it ∈ new_items.map apiKey))) := by
    rw [compare_removed_eq hko' hkn']
    apply List.filter_congr
    intro x _
    exact congrArg (fun b => !b) (decide_eq_decide.mpr (hpn.map apiKey).mem_iff)
  have hRit : (compare_api_items old_items new_items).2.1 =
      old_items.filter (fun it => !(decide (apiKey it ∈ new_items.map apiKey))) :=
    compare_removed_eq hko hkn
  have hR : List.insertionSort fpLe (compare_api_items old_shuffled new_shuffled).2.1 =
      List.insertionSort fpLe (compare_api_items old_items new_items).2.1 := by
    rw [hRsh, hRit]
    exact insertionSort_fpLe_eq
      (List.Perm.filter _ hpo)
      (List.Nodup.sublist (List.Sublist.map _ (List.filter_sublist _)) hfo)
  have hMsh : (compare_api_items old_shuffled new_shuffled).2.2 =
      old_shuffled.filterMap (fun o =>
        match new_items.find? (fun n => decide (apiKey n = apiKey o)) with
        | some n => if o.signature ≠ n.signature then some (o, n) else none
        | none => none) := by
    rw [compare_modified_eq hko' hkn']
    apply List.filterMap_congr
    intro o _
    have hfind : new_shuffled.find? (fun n => decide (apiKey n = apiKey o)) =
        new_items.find? (fun n => decide (apiKey n = apiKey o)) := by
      apply find?_eq_of_perm_of_unique hpn
      intro a ha b hb hpa hpb
      have h1 : apiKey a = apiKey o := by simpa using hpa
      have h2 : apiKey b = apiKey o := by simpa using hpb
      exact List.inj_on_of_nodup_map hkn' ha hb (h1.trans h2.symm)
    rw [hfind]
  have hMit : (compare_api_items old_items new_items).2.2 =
      old_items.filterMap (fun o =>
        match new_items.find? (fun n => decide (apiKey n = apiKey o)) with
        | some n => if o.signature ≠ n.signature then some (o, n) else none
        | none => none) :=
    compare_modified_eq hko hkn
  have hF : ∀ (o : ApiItem) (y : ApiItem × ApiItem),
      (match new_items.find? (fun n => decide (apiKey n = apiKey o)) with
        | some n => if o.signature ≠ n.signature then some (o, n) else none
        | none => none) = some y → y.1 = o := by
    intro o y hy
    rcases hfind : new_items.find? (fun n => decide (apiKey n = apiKey o)) with _ | n
    · simp only [hfind] at hy
      exact Option.noConfusion hy
    · simp only [hfind] at hy
      by_cases hsig : o.signature ≠ n.signature
      · rw [if_pos hsig] at hy
        rw [← Option.some.inj hy]
      · rw [if_neg hsig] at hy
        exact Option.noConfusion hy
  have hMnodup : ((old_items.filterMap (fun o =>
      match new_items.find? (fun n => decide (apiKey n = apiKey o)) with
      | some n => if o.signature ≠ n.signature then some (o, n) else none
      | none => none)).map (fun p => p.1.full_path)).Nodup := by
    have hsub := map_fst_filterMap_sublist hF old_items
    have hsub2 := List.Sublist.map ApiItem.full_path hsub
    rw [List.map_map] at hsub2
    exact List.Nodup.sublist hsub2 hfo
  have hM : List.insertionSort pairLe (compare_api_items old_shuffled new_shuffled).2.2 =
      List.insertionSort pairLe (compare_api_items old_items new_items).2.2 := by
    rw [hMsh, hMit]
    exact insertionSort_pairLe_eq (List.Perm.filterMap _ hpo) hMnodup
  refine ⟨List.sorted_insertionSort fpLe _, List.sorted_insertionSort fpLe _,
    List.sorted_insertionSort pairLe _, ?_⟩
  unfold diff_sorted
  rw [hA, hR, hM]

/-- Witness for C1 on concrete inputs given in two different orders. -/
theorem c1_display_sorted_deterministic_witness :
    ((([] : List ApiItem).map apiKey).Nodup ∧
     ([c1_itemA, c1_itemB].map apiKey).Nodup ∧
     (([] : List ApiItem).map ApiItem.full_path).Nodup ∧
     ([c1_itemA, c1_itemB].map ApiItem.full_path).Nodup ∧
     ([] : List ApiItem).Perm [] ∧
     [c1_itemB, c1_itemA].Perm [c1_itemA, c1_itemB]) ∧
    diff_sorted [] [c1_itemB, c1_itemA] = diff_sorted [] [c1_itemA, c1_itemB] :=
  ⟨⟨by decide, by decide, by decide, by decide, List.Perm.refl [], by decide⟩,
    (c1_display_sorted_deterministic [] [c1_itemA, c1_itemB] [] [c1_itemB, c1_itemA]
      (by decide) (by decide) (by decide) (by decide)
      (List.Perm.refl []) (by decide)).2.2.2⟩

end Zdoc
